import Mathlib

/-!
# influxdb3: option resolution and the query call

A shallow embedding of `influxdb3/options.go` and `influxdb3/query.go`.

* Go structs are Lean structures; a Go pointer is `Option` of an address
  (`none` is `nil`), and the objects pointers lead to live in a `Store`.
* A Go `map[string]string` value is a reference: `none` for the nil map, or
  the address of a map object whose contents are kept in the `Store`.
* A functional option (`func(o *options)`) is a function of the draft and
  the store, returning both.
* The remote collaborators of the query call (Flight SQL client, Flight
  client, record reader) are given as functions; every call made to them is
  appended to a trace.
-/

namespace Influxdb3

/-! ## options.go -/

/-- Modelled from the spec: the `QueryType` enumeration is declared in another
file of the package. It is an integer-coded enumeration; its zero value is the
value a fresh `options` draft holds. -/
abbrev QueryType := Int

/-- Modelled from the spec: `FlightSQL`, the default query type ("the primary
supported query dialect"), first member of the enumeration. -/
def FlightSQL : QueryType := 0

/-- Line-protocol timestamp precision (`lineprotocol.Precision`, a byte-coded
enumeration of the line-protocol library). -/
abbrev Precision := Nat

/-- The constant `lineprotocol.Nanosecond`, the zero value of `Precision`. -/
def Nanosecond : Precision := 0

/-- Contents of one Go map object of type `map[string]string`. -/
abbrev TagMap := List (String × String)

/-- A Go value of type `map[string]string`: `none` is the nil map, `some a`
refers to the map object at address `a` of the store. -/
abbrev MapRef := Option Nat

/-- QueryOptions holds options for query. -/
structure QueryOptions where
  Database : String := ""
  QueryType : QueryType := 0
deriving DecidableEq, Repr, Inhabited

/-- WriteOptions holds options for write. `GzipThreshold` is a Go `int`; it is
only stored and copied here, never computed with. -/
structure WriteOptions where
  Database : String := ""
  Precision : Precision := 0
  DefaultTags : MapRef := none
  GzipThreshold : Int := 0
deriving DecidableEq, Repr, Inhabited

/-- Initial value of the package variable `DefaultQueryOptions`. -/
def DefaultQueryOptions : QueryOptions :=
  { QueryType := FlightSQL }

/-- Initial value of the package variable `DefaultWriteOptions`. -/
def DefaultWriteOptions : WriteOptions :=
  { Precision := Nanosecond, GzipThreshold := 1000 }

/-- The draft `options`: both option structs, embedded. -/
structure options where
  QueryOptions : QueryOptions := {}
  WriteOptions : WriteOptions := {}
deriving DecidableEq, Repr, Inhabited

/-- Everything a pointer handed to the resolver can reach: the addressable
`QueryOptions` and `WriteOptions` records and the map objects. -/
structure Store where
  queryRecords : List QueryOptions := []
  writeRecords : List WriteOptions := []
  maps : List TagMap := []
deriving DecidableEq, Repr, Inhabited

/-- The value `*p` of a `*QueryOptions`. Go pointers never dangle; an address
outside the store reads as the zero record. -/
def Store.loadQuery (s : Store) (p : Nat) : QueryOptions :=
  s.queryRecords.getD p {}

/-- The value `*p` of a `*WriteOptions`. -/
def Store.loadWrite (s : Store) (p : Nat) : WriteOptions :=
  s.writeRecords.getD p {}

/-- Contents of the map a `map[string]string` value refers to (the nil map
reads as empty). -/
def Store.tags (s : Store) (m : MapRef) : TagMap :=
  match m with
  | none => []
  | some a => s.maps.getD a []

/-- The Go type `Option`, `func(o *options)`: the draft `*o` is passed and
returned by value, next to the store holding whatever else the closure can
reach. -/
abbrev OptionFn := options → Store → options × Store

/-- WithDatabase is used to override default database. -/
def WithDatabase (database : String) : OptionFn := fun o s =>
  ({ o with
      QueryOptions := { o.QueryOptions with Database := database },
      WriteOptions := { o.WriteOptions with Database := database } }, s)

/-- WithQueryType is used to override default query type. -/
def WithQueryType (queryType : QueryType) : OptionFn := fun o s =>
  ({ o with QueryOptions := { o.QueryOptions with QueryType := queryType } }, s)

/-- WithPrecision is used to override default precision. -/
def WithPrecision (precision : Precision) : OptionFn := fun o s =>
  ({ o with WriteOptions := { o.WriteOptions with Precision := precision } }, s)

/-- WithGzipThreshold is used to override default GZIP threshold. -/
def WithGzipThreshold (gzipThreshold : Int) : OptionFn := fun o s =>
  ({ o with WriteOptions := { o.WriteOptions with GzipThreshold := gzipThreshold } }, s)

/-- WithDefaultTags is used to override default tags: the map reference is
stored, the map object is not copied. -/
def WithDefaultTags (tags : MapRef) : OptionFn := fun o s =>
  ({ o with WriteOptions := { o.WriteOptions with DefaultTags := tags } }, s)

/-- The loop `for _, opt := range opts { opt(o) }`. -/
def applyOpts (opts : List OptionFn) (o : options) (s : Store) : options × Store :=
  match opts with
  | [] => (o, s)
  | opt :: rest =>
    let r := opt o s
    applyOpts rest r.1 r.2

/-- The function `newOptions`: a fresh zero draft, the defaults copied in by
value where the pointer is not nil, then the overrides in list order. -/
def newOptions (s : Store) (defaultQueryOptions : Option Nat)
    (defaultWriteOptions : Option Nat) (opts : List OptionFn) : options × Store :=
  let o : options := {}
  let o := match defaultQueryOptions with
    | some p => { o with QueryOptions := s.loadQuery p }
    | none => o
  let o := match defaultWriteOptions with
    | some p => { o with WriteOptions := s.loadWrite p }
    | none => o
  applyOpts opts o s

/-- The function `newQueryOptions`: the query half of the resolved draft. -/
def newQueryOptions (s : Store) (defaults : Option Nat) (opts : List OptionFn) :
    QueryOptions × Store :=
  let r := newOptions s defaults none opts
  (r.1.QueryOptions, r.2)

/-- The function `newWriteOptions`: the write half of the resolved draft. -/
def newWriteOptions (s : Store) (defaults : Option Nat) (opts : List OptionFn) :
    WriteOptions × Store :=
  let r := newOptions s none defaults opts
  (r.1.WriteOptions, r.2)

/-- A call of one of the five exported option constructors, with its
argument. -/
inductive OptionCall where
  | database (database : String)
  | queryType (queryType : QueryType)
  | precision (precision : Precision)
  | gzipThreshold (gzipThreshold : Int)
  | defaultTags (tags : MapRef)
deriving DecidableEq, Repr

/-- The option value the constructor call returns. -/
def OptionCall.build : OptionCall → OptionFn
  | .database d => WithDatabase d
  | .queryType q => WithQueryType q
  | .precision p => WithPrecision p
  | .gzipThreshold n => WithGzipThreshold n
  | .defaultTags t => WithDefaultTags t

/-- Calls of the write-only constructors `WithPrecision`, `WithGzipThreshold`
and `WithDefaultTags`. -/
def OptionCall.writeOnly : OptionCall → Bool
  | .precision _ => true
  | .gzipThreshold _ => true
  | .defaultTags _ => true
  | _ => false

/-- Calls of the query-only constructor `WithQueryType`. -/
def OptionCall.queryOnly : OptionCall → Bool
  | .queryType _ => true
  | _ => false

/-! ## query.go -/

/-- Modelled from the spec: `ClientConfig` is declared in another file of
the package; these are the fields `query.go` reads. -/
structure ClientConfig where
  Host : String := ""
  Token : String := ""
  Database : String := ""
deriving DecidableEq, Repr, Inhabited

/-- The outgoing gRPC metadata of a `context.Context`, as key/value pairs in
the order they were appended. -/
abbrev Context := List (String × String)

/-- The library call `metadata.AppendToOutgoingContext` with one key/value
pair. -/
def AppendToOutgoingContext (ctx : Context) (key value : String) : Context :=
  ctx ++ [(key, value)]

/-- A bound-parameter record (`arrow.Record`), by identity. -/
abbrev Record := Nat

/-- A fetch ticket (`flight.Ticket`), by its bytes. -/
abbrev Ticket := List Nat

/-- One `flight.FlightEndpoint`. -/
structure FlightEndpoint where
  Ticket : Ticket
deriving DecidableEq, Repr, Inhabited

/-- The response `flight.FlightInfo` of `Execute`: its endpoint slice, every
element a decoded endpoint. -/
structure FlightInfo where
  Endpoint : List FlightEndpoint
deriving DecidableEq, Repr, Inhabited

/-- A prepared statement, by its server-side handle. -/
abbrev PreparedStatement := Nat

/-- The raw stream `DoGet` returns, by identity. -/
abbrev Stream := Nat

/-- The decoding reader `flight.NewRecordReader` returns, by identity. -/
abbrev RecordReader := Nat

/-- The system certificate pool, by identity. -/
abbrev CertPool := Nat

/-- The gRPC dial option chosen in `initializeQueryClient`:
`credentials.NewClientTLSFromCert(pool, "")` or `insecure.NewCredentials()`. -/
inductive Transport where
  | tls (pool : CertPool)
  | insecure
deriving DecidableEq, Repr

/-- Modelled from the spec: `QueryIterator` and `newQueryIterator` are declared
in another file of the package; the iterator wraps the record reader. -/
structure QueryIterator where
  reader : RecordReader
deriving DecidableEq, Repr

/-- Modelled from the spec: `newQueryIterator` wraps the decoding reader. -/
def newQueryIterator (reader : RecordReader) : QueryIterator :=
  { reader := reader }

/-- The Flight SQL client `*flightsql.Client` together with the remote behind
it. `Execute` answers from the statement and the parameters bound to it. An
error is given by its message. -/
structure FlightSqlClient where
  Prepare : Context → String → Except String PreparedStatement
  Execute : Context → PreparedStatement → Option Record → Except String FlightInfo

/-- The Flight client `flight.Client` together with the remote behind it. -/
structure FlightClient where
  DoGet : Context → Ticket → Except String Stream

/-- The collaborators that are not reached through the client handles.
`ReplaceURLProtocolWithPort` is declared in another file of the package and
is taken as given: it returns the connection target and the `*bool` safe flag
(`none` is nil). -/
structure World where
  ReplaceURLProtocolWithPort : String → String × Option Bool
  SystemCertPool : Except String CertPool
  NewClientWithMiddleware : String → Transport → Except String FlightClient
  NewClient : String → Transport → Except String FlightSqlClient
  NewRecordReader : Stream → Except String RecordReader

/-- The fields of `Client` that `query.go` uses; a handle that has not been
stored yet is `none` (nil). -/
structure Client where
  config : ClientConfig
  queryClient : Option FlightClient := none
  queryClientSql : Option FlightSqlClient := none

/-- A call made to a collaborator, with its arguments. -/
inductive Event where
  | SystemCertPool
  | NewClientWithMiddleware (url : String) (transport : Transport)
  | NewClient (url : String) (transport : Transport)
  | Prepare (ctx : Context) (query : String)
  | SetParameters (stmt : PreparedStatement) (params : Record)
  | Execute (ctx : Context) (stmt : PreparedStatement)
  | Print (tick : Ticket)
  | DoGet (ctx : Context) (ticket : Ticket)
  | NewRecordReader (stream : Stream)
  | Close (stmt : PreparedStatement) (ctx : Context)
deriving DecidableEq, Repr

/-- How a call of `QueryWithOptions` ends: it returns the pair
`(*QueryIterator, error)`, or it panics. -/
inductive Outcome where
  | ret (iterator : Option QueryIterator) (err : Option String)
  | panic (msg : String)
deriving DecidableEq, Repr

/-- The run-time panic of a nil pointer dereference. -/
def nilDereference : String :=
  "runtime error: invalid memory address or nil pointer dereference"

/-- The run-time panic of `info.Endpoint[0]` on an empty slice. -/
def indexOutOfRange : String :=
  "runtime error: index out of range [0] with length 0"

/-- The method `initializeQueryClient`: the returned error (`none` is nil),
the client with the handles stored so far, and the calls made. -/
def initializeQueryClient (w : World) (c : Client) : Option String × Client × List Event :=
  let r := w.ReplaceURLProtocolWithPort c.config.Host
  let url := r.1
  let safe := r.2
  let chosen : Except String Transport × List Event :=
    if safe = none ∨ safe = some true then
      match w.SystemCertPool with
      | .error err => (.error ("x509: " ++ err), [Event.SystemCertPool])
      | .ok pool => (.ok (Transport.tls pool), [Event.SystemCertPool])
    else
      (.ok Transport.insecure, [])
  match chosen with
  | (.error e, t) => (some e, c, t)
  | (.ok transport, t) =>
    match w.NewClientWithMiddleware url transport with
    | .error err =>
      (some ("flight: " ++ err), c, t ++ [Event.NewClientWithMiddleware url transport])
    | .ok client =>
      let c := { c with queryClient := some client }
      match w.NewClient url transport with
      | .error err =>
        (some ("flight: " ++ err), c,
          t ++ [Event.NewClientWithMiddleware url transport, Event.NewClient url transport])
      | .ok clientFlight =>
        (none, { c with queryClientSql := some clientFlight },
          t ++ [Event.NewClientWithMiddleware url transport, Event.NewClient url transport])

/-- The statements of `QueryWithOptions` that follow `defer stmt.Close(ctx)`:
how they end and the calls they make. -/
def executeAndFetch (w : World) (c : Client) (sql : FlightSqlClient) (ctx : Context)
    (stmt : PreparedStatement) (params : Option Record) : Outcome × List Event :=
  let t := match params with
    | some p => [Event.SetParameters stmt p]
    | none => []
  match sql.Execute ctx stmt params with
  | .error err =>
    (.ret none (some ("flight prepare: " ++ err)), t ++ [Event.Execute ctx stmt])
  | .ok info =>
    let t := t ++ [Event.Execute ctx stmt]
    match info.Endpoint[0]? with
    | none => (.panic indexOutOfRange, t)
    | some endpoint =>
      let t := t ++ [Event.Print endpoint.Ticket]
      match c.queryClient with
      | none => (.panic nilDereference, t)
      | some queryClient =>
        let t := t ++ [Event.DoGet ctx endpoint.Ticket]
        match queryClient.DoGet ctx endpoint.Ticket with
        | .error err => (.ret none (some ("flight doget: " ++ err)), t)
        | .ok stream =>
          let t := t ++ [Event.NewRecordReader stream]
          match w.NewRecordReader stream with
          | .error err => (.ret none (some ("flight reader: " ++ err)), t)
          | .ok reader => (.ret (some (newQueryIterator reader)) none, t)

/-- The method `QueryWithOptions`: how the call ends and the calls made to the
collaborators, in order. `options` is the record the pointer leads to (`none`
is nil), `params` the parameter record (`none` is nil). The deferred
`stmt.Close(ctx)` runs when the function is left, by return or by panic. -/
def QueryWithOptions (w : World) (c : Client) (ctx : Context) (options : Option QueryOptions)
    (query : String) (params : Option Record) : Outcome × List Event :=
  match options with
  | none => (.ret none (some "options not set"), [])
  | some options =>
    let database := if options.Database ≠ "" then options.Database else c.config.Database
    if database = "" then
      (.ret none (some "database not specified"), [])
    else
      let ctx := AppendToOutgoingContext ctx "authorization" ("Bearer " ++ c.config.Token)
      let ctx := AppendToOutgoingContext ctx "database" database
      match c.queryClientSql with
      | none => (.panic nilDereference, [])
      | some sql =>
        match sql.Prepare ctx query with
        | .error err =>
          (.ret none (some ("flight prepare: " ++ err)), [Event.Prepare ctx query])
        | .ok stmt =>
          let r := executeAndFetch w c sql ctx stmt params
          (r.1, [Event.Prepare ctx query] ++ r.2 ++ [Event.Close stmt ctx])

/-- The method `Query`, with the package variable `DefaultQueryOptions` at its
initial value. -/
def Query (w : World) (c : Client) (ctx : Context) (query : String) : Outcome × List Event :=
  QueryWithOptions w c ctx (some DefaultQueryOptions) query none

/-- The method `QueryParametrized`, with the package variable
`DefaultQueryOptions` at its initial value. -/
def QueryParametrized (w : World) (c : Client) (ctx : Context) (query : String)
    (params : Option Record) : Outcome × List Event :=
  QueryWithOptions w c ctx (some DefaultQueryOptions) query params

/-! ## Observations on traces, and the database the precedence rule names -/

/-- Whether the event is a `Close` of a prepared statement. -/
def Event.isClose : Event → Bool
  | .Close _ _ => true
  | _ => false

/-- Whether the event is a `DoGet`. -/
def Event.isDoGet : Event → Bool
  | .DoGet _ _ => true
  | _ => false

/-- The transport a client-construction event was given. -/
def Event.transportOf : Event → Option Transport
  | .NewClientWithMiddleware _ t => some t
  | .NewClient _ t => some t
  | _ => none

/-- The transports handed to the client constructors in a trace. -/
def transportsUsed (t : List Event) : List Transport :=
  t.filterMap Event.transportOf

/-- The argument of a `WithDatabase` call. -/
def OptionCall.databaseArg : OptionCall → Option String
  | .database d => some d
  | _ => none

/-- The value set by the last `WithDatabase` override of the list, if there is
one. -/
def lastWithDatabase (L : List OptionCall) : Option String :=
  (L.filterMap OptionCall.databaseArg).getLast?

/-- The database of the precedence rule as the specification words it: the
value set by the last `WithDatabase` override if there is one, else the
database of the defaults record, else the database of the session. -/
def specDatabase (L : List OptionCall) (D : QueryOptions) (session : String) : String :=
  match lastWithDatabase L with
  | some v => v
  | none => if D.Database ≠ "" then D.Database else session

/-- The database of the precedence rule as the code applies it: the resolved
database is the value set by the last `WithDatabase` override if there is
one, else the database of the defaults record; the database sent is the
resolved one unless that is empty, else the database of the session. -/
def amendedDatabase (L : List OptionCall) (D : QueryOptions) (session : String) : String :=
  if (lastWithDatabase L).getD D.Database ≠ "" then (lastWithDatabase L).getD D.Database
  else session

/-! ## A stub remote (two endpoints from `Execute`) -/

/-- A Flight SQL stub: `Prepare` succeeds with statement 7, `Execute` answers
with two endpoints. -/
def stubSql : FlightSqlClient where
  Prepare := fun _ _ => .ok 7
  Execute := fun _ _ _ => .ok { Endpoint := [{ Ticket := [1] }, { Ticket := [2] }] }

/-- A Flight stub: `DoGet` opens stream 3 for ticket `[1]` and fails for any
other ticket. -/
def stubFlight : FlightClient where
  DoGet := fun _ t => if t = [1] then .ok 3 else .error "unknown ticket"

/-- A Flight SQL stub like `stubSql` whose `Execute` answers with the first
of the two endpoints only. -/
def stubSqlOneEndpoint : FlightSqlClient where
  Prepare := fun _ _ => .ok 7
  Execute := fun _ _ _ => .ok { Endpoint := [{ Ticket := [1] }] }

/-- A Flight SQL stub whose `Execute` succeeds with no endpoint at all. -/
def stubSqlNoEndpoint : FlightSqlClient where
  Prepare := fun _ _ => .ok 7
  Execute := fun _ _ _ => .ok { Endpoint := [] }

/-- The stub collaborators: the host is taken as it is with a nil safe flag,
the system pool loads, both client constructors hand out the stubs. -/
def stubWorld : World where
  ReplaceURLProtocolWithPort := fun host => (host, none)
  SystemCertPool := .ok 1
  NewClientWithMiddleware := fun _ _ => .ok stubFlight
  NewClient := fun _ _ => .ok stubSql
  NewRecordReader := fun stream => .ok (stream + 10)

/-- A session with both handles stored, for the given configured database. -/
def stubClient (database : String) : Client where
  config := { Host := "https://host", Token := "t", Database := database }
  queryClient := some stubFlight
  queryClientSql := some stubSql

/-! ## Option resolution: lemmas -/

theorem applyOpts_append (a b : List OptionFn) (o : options) (s : Store) :
    applyOpts (a ++ b) o s = applyOpts b (applyOpts a o s).1 (applyOpts a o s).2 := by
  induction a generalizing o s with
  | nil => rfl
  | cons f rest ih =>
    show applyOpts (rest ++ b) (f o s).1 (f o s).2 = _
    rw [ih]
    rfl

/-- None of the five exported constructors writes to the store. -/
theorem build_store (k : OptionCall) (o : options) (s : Store) : (k.build o s).2 = s := by
  cases k <;> rfl

theorem applyOpts_build_store (L : List OptionCall) (o : options) (s : Store) :
    (applyOpts (L.map OptionCall.build) o s).2 = s := by
  induction L generalizing o with
  | nil => rfl
  | cons k rest ih =>
    simp only [List.map_cons, applyOpts, build_store, ih]

/-- A write-only override leaves the query half of the draft alone. -/
theorem build_writeOnly_query (k : OptionCall) (h : k.writeOnly = true) (o : options)
    (s : Store) : (k.build o s).1.QueryOptions = o.QueryOptions := by
  cases k <;> first | rfl | simp [OptionCall.writeOnly] at h

/-- A query-only override leaves the write half of the draft alone. -/
theorem build_queryOnly_write (k : OptionCall) (h : k.queryOnly = true) (o : options)
    (s : Store) : (k.build o s).1.WriteOptions = o.WriteOptions := by
  cases k <;> first | rfl | simp [OptionCall.queryOnly] at h

/-- The query half an override produces depends on the query half it finds only. -/
theorem build_query_congr (k : OptionCall) (o₁ o₂ : options) (s : Store)
    (h : o₁.QueryOptions = o₂.QueryOptions) :
    (k.build o₁ s).1.QueryOptions = (k.build o₂ s).1.QueryOptions := by
  cases k <;> simp [OptionCall.build, WithDatabase, WithQueryType, WithPrecision,
    WithGzipThreshold, WithDefaultTags, h]

/-- The write half an override produces depends on the write half it finds only. -/
theorem build_write_congr (k : OptionCall) (o₁ o₂ : options) (s : Store)
    (h : o₁.WriteOptions = o₂.WriteOptions) :
    (k.build o₁ s).1.WriteOptions = (k.build o₂ s).1.WriteOptions := by
  cases k <;> simp [OptionCall.build, WithDatabase, WithQueryType, WithPrecision,
    WithGzipThreshold, WithDefaultTags, h]

theorem applyOpts_filter_query (L : List OptionCall) (o₁ o₂ : options) (s : Store)
    (h : o₁.QueryOptions = o₂.QueryOptions) :
    (applyOpts (L.map OptionCall.build) o₁ s).1.QueryOptions =
      (applyOpts ((L.filter (fun k => !k.writeOnly)).map OptionCall.build) o₂ s).1.QueryOptions := by
  induction L generalizing o₁ o₂ with
  | nil => exact h
  | cons k rest ih =>
    by_cases hk : k.writeOnly = true
    · simp only [List.map_cons, applyOpts, build_store, List.filter_cons, hk, Bool.not_true,
        Bool.false_eq_true, if_false]
      exact ih _ _ ((build_writeOnly_query k hk o₁ s).trans h)
    · simp only [Bool.not_eq_true] at hk
      simp only [List.map_cons, applyOpts, build_store, List.filter_cons, hk, Bool.not_false,
        if_true]
      exact ih _ _ (build_query_congr k o₁ o₂ s h)

theorem applyOpts_filter_write (L : List OptionCall) (o₁ o₂ : options) (s : Store)
    (h : o₁.WriteOptions = o₂.WriteOptions) :
    (applyOpts (L.map OptionCall.build) o₁ s).1.WriteOptions =
      (applyOpts ((L.filter (fun k => !k.queryOnly)).map OptionCall.build) o₂ s).1.WriteOptions := by
  induction L generalizing o₁ o₂ with
  | nil => exact h
  | cons k rest ih =>
    by_cases hk : k.queryOnly = true
    · simp only [List.map_cons, applyOpts, build_store, List.filter_cons, hk, Bool.not_true,
        Bool.false_eq_true, if_false]
      exact ih _ _ ((build_queryOnly_write k hk o₁ s).trans h)
    · simp only [Bool.not_eq_true] at hk
      simp only [List.map_cons, applyOpts, build_store, List.filter_cons, hk, Bool.not_false,
        if_true]
      exact ih _ _ (build_write_congr k o₁ o₂ s h)

/-- The draft `newOptions` starts the overrides from. -/
theorem newOptions_eq (s : Store) (pq pw : Option Nat) (opts : List OptionFn) :
    newOptions s pq pw opts = applyOpts opts (newOptions s pq pw []).1 s := by
  rfl

theorem newOptions_append (s : Store) (pq pw : Option Nat) (a b : List OptionFn) :
    newOptions s pq pw (a ++ b) =
      applyOpts b (newOptions s pq pw a).1 (newOptions s pq pw a).2 := by
  simp only [newOptions, applyOpts_append]

/-- An option function outside the five exported constructors can write into
a map object the defaults refer to: the store is not constant under option
functions in general. -/
theorem optionFn_may_write_store :
    ∃ f : OptionFn,
      (newOptions { writeRecords := [{ DefaultTags := some 0 }], maps := [[]] } none (some 0)
          [f]).2.tags (some 0) = [("rack", "main")] :=
  ⟨fun o s => (o, { s with maps := s.maps.set 0 [("rack", "main")] }), rfl⟩

/-! ## Option resolution: the claims -/

/-- C1 (last write wins). For all defaults (either pointer possibly nil) and
every non-empty list of overrides made by one and the same constructor, with
arguments `vs ++ [v]`, the field that constructor sets holds `v` in the
resolved draft: whatever the defaults hold and whatever the earlier arguments
`vs` are. `WithDatabase` sets the `Database` field of both halves. -/
theorem C1_last_write_wins (s : Store) (pq pw : Option Nat) :
    (∀ (vs : List String) (v : String),
      (newOptions s pq pw ((vs ++ [v]).map WithDatabase)).1.QueryOptions.Database = v ∧
      (newOptions s pq pw ((vs ++ [v]).map WithDatabase)).1.WriteOptions.Database = v) ∧
    (∀ (vs : List QueryType) (v : QueryType),
      (newOptions s pq pw ((vs ++ [v]).map WithQueryType)).1.QueryOptions.QueryType = v) ∧
    (∀ (vs : List Precision) (v : Precision),
      (newOptions s pq pw ((vs ++ [v]).map WithPrecision)).1.WriteOptions.Precision = v) ∧
    (∀ (vs : List Int) (v : Int),
      (newOptions s pq pw ((vs ++ [v]).map WithGzipThreshold)).1.WriteOptions.GzipThreshold = v) ∧
    (∀ (vs : List MapRef) (v : MapRef),
      (newOptions s pq pw ((vs ++ [v]).map WithDefaultTags)).1.WriteOptions.DefaultTags = v) := by
  refine ⟨fun vs v => ⟨?_, ?_⟩, fun vs v => ?_, fun vs v => ?_, fun vs v => ?_, fun vs v => ?_⟩ <;>
    simp only [List.map_append, List.map_cons, List.map_nil, newOptions_append] <;> rfl

/-- C2 (defaults are never mutated). Resolving a list of overrides built from
the five exported constructors leaves the store as it was: every addressable
query and write record, and the contents of every map object, is what it was
before the call, for `newOptions`, `newQueryOptions` and `newWriteOptions`
alike; and resolving again with the empty list, from the defaults records at
`p` and `q`, returns exactly the records the store held at the start. -/
theorem C2_defaults_not_mutated (s : Store) (pq pw : Option Nat) (L : List OptionCall) :
    (newOptions s pq pw (L.map OptionCall.build)).2 = s ∧
    (newQueryOptions s pq (L.map OptionCall.build)).2 = s ∧
    (newWriteOptions s pw (L.map OptionCall.build)).2 = s ∧
    (∀ p, (newOptions s pq pw (L.map OptionCall.build)).2.loadQuery p = s.loadQuery p) ∧
    (∀ p, (newOptions s pq pw (L.map OptionCall.build)).2.loadWrite p = s.loadWrite p) ∧
    (∀ m, (newOptions s pq pw (L.map OptionCall.build)).2.tags m = s.tags m) ∧
    (∀ p q, (newOptions (newOptions s (some p) (some q) (L.map OptionCall.build)).2
        (some p) (some q) []).1 =
      { QueryOptions := s.loadQuery p, WriteOptions := s.loadWrite q }) ∧
    (∀ p, (newQueryOptions (newQueryOptions s (some p) (L.map OptionCall.build)).2
        (some p) []).1 = s.loadQuery p) ∧
    (∀ q, (newWriteOptions (newWriteOptions s (some q) (L.map OptionCall.build)).2
        (some q) []).1 = s.loadWrite q) := by
  have h : ∀ a b, (newOptions s a b (L.map OptionCall.build)).2 = s := fun a b => by
    rw [newOptions_eq]
    exact applyOpts_build_store L _ s
  have hq : ∀ a, (newQueryOptions s a (L.map OptionCall.build)).2 = s := fun a => h a none
  have hw : ∀ b, (newWriteOptions s b (L.map OptionCall.build)).2 = s := fun b => h none b
  refine ⟨h _ _, hq _, hw _, fun p => by rw [h], fun p => by rw [h], fun m => by rw [h],
    fun p q => by rw [h]; rfl, fun p => by rw [hq]; rfl, fun q => by rw [hw]; rfl⟩

/-- C6 (query/write isolation). The result of `newQueryOptions` is the same
when every write-only override (`WithPrecision`, `WithGzipThreshold`,
`WithDefaultTags`) is removed from the list, and it is made of the two fields
`Database` and `QueryType`; the result of `newWriteOptions` is the same when
every `WithQueryType` override is removed, and it is made of the four fields
`Database`, `Precision`, `DefaultTags` and `GzipThreshold`. -/
theorem C6_query_write_isolation (s : Store) (p : Option Nat) (L : List OptionCall) :
    newQueryOptions s p (L.map OptionCall.build) =
      newQueryOptions s p ((L.filter (fun k => !k.writeOnly)).map OptionCall.build) ∧
    (newQueryOptions s p (L.map OptionCall.build)).1 =
      { Database := (newQueryOptions s p (L.map OptionCall.build)).1.Database,
        QueryType := (newQueryOptions s p (L.map OptionCall.build)).1.QueryType } ∧
    newWriteOptions s p (L.map OptionCall.build) =
      newWriteOptions s p ((L.filter (fun k => !k.queryOnly)).map OptionCall.build) ∧
    (newWriteOptions s p (L.map OptionCall.build)).1 =
      { Database := (newWriteOptions s p (L.map OptionCall.build)).1.Database,
        Precision := (newWriteOptions s p (L.map OptionCall.build)).1.Precision,
        DefaultTags := (newWriteOptions s p (L.map OptionCall.build)).1.DefaultTags,
        GzipThreshold := (newWriteOptions s p (L.map OptionCall.build)).1.GzipThreshold } := by
  refine ⟨?_, rfl, ?_, rfl⟩
  · apply Prod.ext
    · show (newOptions s p none _).1.QueryOptions = (newOptions s p none _).1.QueryOptions
      rw [newOptions_eq, newOptions_eq s p none (List.map _ (List.filter _ _))]
      exact applyOpts_filter_query L _ _ s rfl
    · show (newOptions s p none _).2 = (newOptions s p none _).2
      rw [newOptions_eq, newOptions_eq s p none (List.map _ (List.filter _ _)),
        applyOpts_build_store, applyOpts_build_store]
  · apply Prod.ext
    · show (newOptions s none p _).1.WriteOptions = (newOptions s none p _).1.WriteOptions
      rw [newOptions_eq, newOptions_eq s none p (List.map _ (List.filter _ _))]
      exact applyOpts_filter_write L _ _ s rfl
    · show (newOptions s none p _).2 = (newOptions s none p _).2
      rw [newOptions_eq, newOptions_eq s none p (List.map _ (List.filter _ _)),
        applyOpts_build_store, applyOpts_build_store]

/-- C7 (single-field overrides). Resolving the one override
`WithGzipThreshold n` over the write defaults at `p` gives those defaults with
`GzipThreshold` replaced by `n`; over `DefaultWriteOptions` with `n = 0` that is
threshold 0 and precision nanosecond. On the whole draft, each of
`WithGzipThreshold`, `WithPrecision`, `WithDefaultTags` and `WithQueryType`
replaces its own field and nothing else, and `WithDatabase` replaces the two
`Database` fields and nothing else; none touches the store. -/
theorem C7_single_field_override (s : Store) (pq pw : Option Nat) :
    (∀ (p : Nat) (n : Int),
      newWriteOptions s (some p) [WithGzipThreshold n] =
        ({ s.loadWrite p with GzipThreshold := n }, s)) ∧
    newWriteOptions { writeRecords := [DefaultWriteOptions] } (some 0) [WithGzipThreshold 0] =
      ({ Database := "", Precision := Nanosecond, DefaultTags := none, GzipThreshold := 0 },
        { writeRecords := [DefaultWriteOptions] }) ∧
    (∀ n : Int, newOptions s pq pw [WithGzipThreshold n] =
      ({ (newOptions s pq pw []).1 with
          WriteOptions := { (newOptions s pq pw []).1.WriteOptions with GzipThreshold := n } },
        s)) ∧
    (∀ v : Precision, newOptions s pq pw [WithPrecision v] =
      ({ (newOptions s pq pw []).1 with
          WriteOptions := { (newOptions s pq pw []).1.WriteOptions with Precision := v } },
        s)) ∧
    (∀ t : MapRef, newOptions s pq pw [WithDefaultTags t] =
      ({ (newOptions s pq pw []).1 with
          WriteOptions := { (newOptions s pq pw []).1.WriteOptions with DefaultTags := t } },
        s)) ∧
    (∀ q : QueryType, newOptions s pq pw [WithQueryType q] =
      ({ (newOptions s pq pw []).1 with
          QueryOptions := { (newOptions s pq pw []).1.QueryOptions with QueryType := q } },
        s)) ∧
    (∀ d : String, newOptions s pq pw [WithDatabase d] =
      ({ QueryOptions := { (newOptions s pq pw []).1.QueryOptions with Database := d },
         WriteOptions := { (newOptions s pq pw []).1.WriteOptions with Database := d } },
        s)) := by
  refine ⟨fun p n => rfl, rfl, fun n => rfl, fun v => rfl, fun t => rfl, fun q => rfl,
    fun d => rfl⟩


/-! ## The query call: lemmas -/

/-- The context `QueryWithOptions` hands to the remote: the caller's, with the
bearer token and the database appended. -/
theorem outgoing_eq (ctx : Context) (token database : String) :
    AppendToOutgoingContext (AppendToOutgoingContext ctx "authorization" ("Bearer " ++ token))
      "database" database =
    ctx ++ [("authorization", "Bearer " ++ token), ("database", database)] := by
  simp [AppendToOutgoingContext]

/-- The statements after the `defer` never close the statement themselves. -/
theorem executeAndFetch_no_close (w : World) (c : Client) (sql : FlightSqlClient)
    (ctx : Context) (stmt : PreparedStatement) (params : Option Record) :
    (executeAndFetch w c sql ctx stmt params).2.filter Event.isClose = [] := by
  unfold executeAndFetch
  cases params <;> (repeat' split) <;> simp [Event.isClose, List.filter]

/-- The statements after the `defer` never prepare a statement. -/
theorem executeAndFetch_no_prepare (w : World) (c : Client) (sql : FlightSqlClient)
    (ctx : Context) (stmt : PreparedStatement) (params : Option Record)
    (ctx' : Context) (q : String) :
    Event.Prepare ctx' q ∉ (executeAndFetch w c sql ctx stmt params).2 := by
  unfold executeAndFetch
  cases params <;> (repeat' split) <;> simp

/-- An `Execute` event of the statements after the `defer` is the one call
`stmt.Execute(ctx)`. -/
theorem executeAndFetch_execute_mem (w : World) (c : Client) (sql : FlightSqlClient)
    (ctx : Context) (stmt : PreparedStatement) (params : Option Record)
    (ctx' : Context) (stmt' : PreparedStatement)
    (h : Event.Execute ctx' stmt' ∈ (executeAndFetch w c sql ctx stmt params).2) :
    ctx' = ctx ∧ stmt' = stmt := by
  unfold executeAndFetch at h
  cases params <;> (revert h; repeat' split) <;> simp


/-- A `Prepare` event in the trace of `QueryWithOptions` is the one call
`c.queryClientSql.Prepare(ctx, query)`, and the run is decided by its answer:
on an error the call returns it, otherwise the statements after the `defer`
run and the deferred `Close` follows them. -/
theorem prepare_mem_inv (w : World) (c : Client) (ctx : Context)
    (options : Option QueryOptions) (query : String) (params : Option Record)
    (ctx' : Context) (q : String)
    (h : Event.Prepare ctx' q ∈ (QueryWithOptions w c ctx options query params).2) :
    q = query ∧ ∃ sql, c.queryClientSql = some sql ∧
      ((∃ err, sql.Prepare ctx' query = .error err ∧
          QueryWithOptions w c ctx options query params =
            (.ret none (some ("flight prepare: " ++ err)), [Event.Prepare ctx' query])) ∨
       (∃ stmt, sql.Prepare ctx' query = .ok stmt ∧
          QueryWithOptions w c ctx options query params =
            ((executeAndFetch w c sql ctx' stmt params).1,
              [Event.Prepare ctx' query] ++ (executeAndFetch w c sql ctx' stmt params).2 ++
                [Event.Close stmt ctx']))) := by
  unfold QueryWithOptions at h ⊢
  cases options with
  | none => simp at h
  | some o =>
    simp only at h ⊢
    generalize (if o.Database ≠ "" then o.Database else c.config.Database) = d at h ⊢
    by_cases hde : d = ""
    · simp [hde] at h
    · simp only [hde, if_false] at h ⊢
      generalize AppendToOutgoingContext (AppendToOutgoingContext ctx "authorization"
        ("Bearer " ++ c.config.Token)) "database" d = ctx0 at h ⊢
      cases hsql : c.queryClientSql with
      | none => simp [hsql] at h
      | some sql =>
        simp only [hsql] at h ⊢
        cases hp : sql.Prepare ctx0 query with
        | error err =>
          simp only [hp, List.mem_singleton, Event.Prepare.injEq] at h
          obtain ⟨hc, hq⟩ := h
          subst hc
          exact ⟨hq, sql, rfl, Or.inl ⟨err, hp, rfl⟩⟩
        | ok stmt =>
          have hno := executeAndFetch_no_prepare w c sql ctx0 stmt params ctx' q
          simp only [hp, List.mem_append, List.mem_singleton, Event.Prepare.injEq, hno,
            or_false, reduceCtorEq] at h
          obtain ⟨hc, hq⟩ := h
          subst hc
          exact ⟨hq, sql, rfl, Or.inr ⟨stmt, hp, rfl⟩⟩


/-- An `Execute` event in the trace of `QueryWithOptions` is the one call
`stmt.Execute(ctx)` on the statement `Prepare` returned. -/
theorem execute_mem_inv (w : World) (c : Client) (ctx : Context)
    (options : Option QueryOptions) (query : String) (params : Option Record)
    (ctx' : Context) (stmt : PreparedStatement)
    (h : Event.Execute ctx' stmt ∈ (QueryWithOptions w c ctx options query params).2) :
    ∃ sql, c.queryClientSql = some sql ∧ sql.Prepare ctx' query = .ok stmt ∧
      QueryWithOptions w c ctx options query params =
        ((executeAndFetch w c sql ctx' stmt params).1,
          [Event.Prepare ctx' query] ++ (executeAndFetch w c sql ctx' stmt params).2 ++
            [Event.Close stmt ctx']) := by
  unfold QueryWithOptions at h ⊢
  cases options with
  | none => simp at h
  | some o =>
    simp only at h ⊢
    generalize (if o.Database ≠ "" then o.Database else c.config.Database) = d at h ⊢
    by_cases hde : d = ""
    · simp [hde] at h
    · simp only [hde, if_false] at h ⊢
      generalize AppendToOutgoingContext (AppendToOutgoingContext ctx "authorization"
        ("Bearer " ++ c.config.Token)) "database" d = ctx0 at h ⊢
      cases hsql : c.queryClientSql with
      | none => simp [hsql] at h
      | some sql =>
        simp only [hsql] at h ⊢
        cases hp : sql.Prepare ctx0 query with
        | error err => simp [hp] at h
        | ok stmt0 =>
          simp only [hp, List.mem_append, List.mem_singleton, reduceCtorEq, false_or,
            or_false] at h
          obtain ⟨hc, hs⟩ := executeAndFetch_execute_mem w c sql ctx0 stmt0 params ctx' stmt h
          subst hc
          subst hs
          exact ⟨sql, rfl, hp, rfl⟩

/-- With an empty endpoint list the access `info.Endpoint[0]` panics, after
`Execute` and before anything else is called. -/
theorem executeAndFetch_no_endpoint (w : World) (c : Client) (sql : FlightSqlClient)
    (ctx : Context) (stmt : PreparedStatement) (params : Option Record) (info : FlightInfo)
    (he : sql.Execute ctx stmt params = .ok info) (hn : info.Endpoint = []) :
    (executeAndFetch w c sql ctx stmt params).1 = .panic indexOutOfRange := by
  unfold executeAndFetch
  simp [he, hn]

/-- With a first endpoint and a stored Flight client, the statements after the
`defer` are decided by the first endpoint's ticket alone. -/
theorem executeAndFetch_first_endpoint (w : World) (c : Client) (sql : FlightSqlClient)
    (fc : FlightClient) (ctx : Context) (stmt : PreparedStatement) (params : Option Record)
    (info : FlightInfo) (ep : FlightEndpoint) (rest : List FlightEndpoint)
    (hfc : c.queryClient = some fc)
    (he : sql.Execute ctx stmt params = .ok info) (hn : info.Endpoint = ep :: rest) :
    executeAndFetch w c sql ctx stmt params =
      (match fc.DoGet ctx ep.Ticket with
        | .error err => .ret none (some ("flight doget: " ++ err))
        | .ok stream =>
          match w.NewRecordReader stream with
          | .error err => .ret none (some ("flight reader: " ++ err))
          | .ok reader => .ret (some (newQueryIterator reader)) none,
       (match params with
        | some p => [Event.SetParameters stmt p]
        | none => []) ++
       [Event.Execute ctx stmt, Event.Print ep.Ticket, Event.DoGet ctx ep.Ticket] ++
       (match fc.DoGet ctx ep.Ticket with
        | .error _ => []
        | .ok stream => [Event.NewRecordReader stream])) := by
  unfold executeAndFetch
  simp only [he, hn, hfc, List.getElem?_cons_zero]
  cases hg : fc.DoGet ctx ep.Ticket with
  | error err => cases params <;> simp
  | ok stream =>
    cases hr : w.NewRecordReader stream <;> cases params <;> simp [hr]


/-- Two Flight SQL clients whose `Execute` answers are equal, or both
successful with the same first endpoint, give the same run of the statements
after the `defer`. -/
theorem executeAndFetch_agree (w : World) (c c₂ : Client) (sql sql₂ : FlightSqlClient)
    (ctx : Context) (stmt : PreparedStatement) (params : Option Record)
    (hq : c₂.queryClient = c.queryClient)
    (h : sql.Execute ctx stmt params = sql₂.Execute ctx stmt params ∨
      ∃ i₁ i₂ ep r₁ r₂, sql.Execute ctx stmt params = .ok i₁ ∧
        sql₂.Execute ctx stmt params = .ok i₂ ∧
        i₁.Endpoint = ep :: r₁ ∧ i₂.Endpoint = ep :: r₂) :
    executeAndFetch w c₂ sql₂ ctx stmt params = executeAndFetch w c sql ctx stmt params := by
  rcases h with h | ⟨i₁, i₂, ep, r₁, r₂, h₁, h₂, e₁, e₂⟩
  · unfold executeAndFetch
    rw [h, hq]
  · unfold executeAndFetch
    simp only [h₁, h₂, e₁, e₂, hq, List.getElem?_cons_zero]

/-- The handles are stored in order in `initializeQueryClient`: whenever the
Flight SQL handle is stored afterwards, so is the Flight handle. -/
theorem initializeQueryClient_handles (w : World) (c : Client)
    (h : c.queryClientSql ≠ none → c.queryClient ≠ none) :
    (initializeQueryClient w c).2.1.queryClientSql ≠ none →
      (initializeQueryClient w c).2.1.queryClient ≠ none := by
  unfold initializeQueryClient
  generalize w.ReplaceURLProtocolWithPort c.config.Host = r
  obtain ⟨url, safe⟩ := r
  have key : ∀ (tr : Transport) (t : List Event),
      (match w.NewClientWithMiddleware url tr with
        | .error err =>
          (some ("flight: " ++ err), c, t ++ [Event.NewClientWithMiddleware url tr])
        | .ok client =>
          match w.NewClient url tr with
          | .error err =>
            (some ("flight: " ++ err), { c with queryClient := some client },
              t ++ [Event.NewClientWithMiddleware url tr, Event.NewClient url tr])
          | .ok clientFlight =>
            ((none : Option String),
              { c with queryClient := some client, queryClientSql := some clientFlight },
              t ++ [Event.NewClientWithMiddleware url tr, Event.NewClient url tr])
        ).2.1.queryClientSql ≠ none →
      (match w.NewClientWithMiddleware url tr with
        | .error err =>
          (some ("flight: " ++ err), c, t ++ [Event.NewClientWithMiddleware url tr])
        | .ok client =>
          match w.NewClient url tr with
          | .error err =>
            (some ("flight: " ++ err), { c with queryClient := some client },
              t ++ [Event.NewClientWithMiddleware url tr, Event.NewClient url tr])
          | .ok clientFlight =>
            ((none : Option String),
              { c with queryClient := some client, queryClientSql := some clientFlight },
              t ++ [Event.NewClientWithMiddleware url tr, Event.NewClient url tr])
        ).2.1.queryClient ≠ none := by
    intro tr t
    cases w.NewClientWithMiddleware url tr with
    | error e => exact h
    | ok client => cases w.NewClient url tr <;> simp
  rcases safe with _ | _ | _
  · simp only [true_or, if_true]
    cases w.SystemCertPool with
    | error err => exact h
    | ok pool => exact key _ _
  · simp only [reduceCtorEq, Option.some.injEq, Bool.false_eq_true, or_self, if_false]
    exact key _ _
  · simp only [or_true, if_true]
    cases w.SystemCertPool with
    | error err => exact h
    | ok pool => exact key _ _

/-- The draft holds the very map reference of the write defaults: the map
object is shared, not copied. -/
theorem newOptions_shares_tags (s : Store) (pq : Option Nat) (q : Nat) :
    (newOptions s pq (some q) []).1.WriteOptions.DefaultTags = (s.loadWrite q).DefaultTags := by
  cases pq <;> rfl

/-! ## The query call: the claims -/

/-- C4 (validation before any remote call). For every options record whose
`Database` is empty and every session whose configured database is empty,
whatever the query text and the parameter record, `QueryWithOptions` returns a
nil iterator and the error "database not specified" and has called no
collaborator; so do `Query` and `QueryParametrized`, which pass the default
query options. -/
theorem C4_validation_before_remote (w : World) (c : Client) (ctx : Context)
    (options : QueryOptions) (query : String) (params : Option Record)
    (hd : options.Database = "") (hc : c.config.Database = "") :
    QueryWithOptions w c ctx (some options) query params =
      (.ret none (some "database not specified"), []) ∧
    Query w c ctx query = (.ret none (some "database not specified"), []) ∧
    QueryParametrized w c ctx query params =
      (.ret none (some "database not specified"), []) := by
  refine ⟨?_, ?_, ?_⟩ <;>
    simp [Query, QueryParametrized, QueryWithOptions, DefaultQueryOptions, hd, hc]

/-- Scenario A: no database at call or session level, `Query(ctx, "SELECT 1")`
fails with "database not specified" and nothing is called. -/
theorem C4_witness :
    Query stubWorld (stubClient "") [] "SELECT 1" =
      (.ret none (some "database not specified"), []) :=
  (C4_validation_before_remote stubWorld (stubClient "") [] DefaultQueryOptions "SELECT 1" none
    rfl rfl).2.1

/-- C5 (the prepared statement is released on every exit path). In every run
of `QueryWithOptions` in which `Prepare` was called and succeeded with
statement `stmt`, the trace holds exactly one `Close`, that of `stmt`, and it
is the last call of the run: whether the run ends in success, in an `Execute`
failure, in a `DoGet` failure, in a reader failure or in a panic. In every run
in which `Prepare` failed, and in every run in which it was not called, the
trace holds no `Close`. -/
theorem C5_statement_release (w : World) (c : Client) (ctx : Context)
    (options : Option QueryOptions) (query : String) (params : Option Record) :
    (∀ sql ctx' stmt, c.queryClientSql = some sql →
      Event.Prepare ctx' query ∈ (QueryWithOptions w c ctx options query params).2 →
      sql.Prepare ctx' query = .ok stmt →
      (QueryWithOptions w c ctx options query params).2.filter Event.isClose =
          [Event.Close stmt ctx'] ∧
        (QueryWithOptions w c ctx options query params).2.getLast? =
          some (Event.Close stmt ctx')) ∧
    (∀ sql ctx' err, c.queryClientSql = some sql →
      Event.Prepare ctx' query ∈ (QueryWithOptions w c ctx options query params).2 →
      sql.Prepare ctx' query = .error err →
      (QueryWithOptions w c ctx options query params).2.filter Event.isClose = []) ∧
    ((∀ ctx' q, Event.Prepare ctx' q ∉ (QueryWithOptions w c ctx options query params).2) →
      (QueryWithOptions w c ctx options query params).2.filter Event.isClose = []) := by
  refine ⟨fun sql ctx' stmt hsql hmem hp => ?_, fun sql ctx' err hsql hmem hp => ?_,
    fun hno => ?_⟩
  · obtain ⟨_, sql', hsql', hcase⟩ := prepare_mem_inv w c ctx options query params ctx' query hmem
    rw [hsql] at hsql'
    cases hsql'
    rcases hcase with ⟨err, he, _⟩ | ⟨stmt', hs, hrun⟩
    · rw [hp] at he
      cases he
    · rw [hp] at hs
      cases hs
      rw [hrun]
      refine ⟨?_, ?_⟩
      · simp [List.filter_append, executeAndFetch_no_close, Event.isClose, List.filter]
      · show (([Event.Prepare ctx' query] ++ (executeAndFetch w c sql ctx' stmt params).2) ++
          [Event.Close stmt ctx']).getLast? = _
        rw [List.getLast?_append]
        rfl
  · obtain ⟨_, sql', hsql', hcase⟩ := prepare_mem_inv w c ctx options query params ctx' query hmem
    rw [hsql] at hsql'
    cases hsql'
    rcases hcase with ⟨err', _, hrun⟩ | ⟨stmt', hs, _⟩
    · rw [hrun]
      simp [Event.isClose, List.filter]
    · rw [hp] at hs
      cases hs
  · revert hno
    unfold QueryWithOptions
    cases options with
    | none => simp
    | some o =>
      simp only
      generalize (if o.Database ≠ "" then o.Database else c.config.Database) = d
      by_cases hde : d = ""
      · simp [hde]
      · simp only [hde, if_false]
        cases c.queryClientSql with
        | none => simp
        | some sql =>
          simp only
          split
          · intro hno
            exact absurd (List.mem_singleton.mpr rfl) (hno _ _)
          · intro hno
            exact absurd (List.mem_append_left _ (List.mem_append_left _
              (List.mem_singleton.mpr rfl))) (hno _ _)

/-- Scenario D run against the stub remote: `Prepare` succeeds with statement
7 and the one `Close` of the run is that of statement 7. -/
theorem C5_witness :
    (QueryWithOptions stubWorld (stubClient "metrics") [] (some DefaultQueryOptions)
        "SELECT 1" none).2.filter Event.isClose =
      [Event.Close 7 [("authorization", "Bearer t"), ("database", "metrics")]] :=
  ((C5_statement_release stubWorld (stubClient "metrics") [] (some DefaultQueryOptions)
    "SELECT 1" none).1 stubSql [("authorization", "Bearer t"), ("database", "metrics")] 7
    rfl (by decide) rfl).1


/-- The `Database` the query half of the draft ends with: the argument of the
last `WithDatabase` call, or what the draft started with. -/
theorem applyOpts_query_database (L : List OptionCall) (o : options) (s : Store) :
    (applyOpts (L.map OptionCall.build) o s).1.QueryOptions.Database =
      (lastWithDatabase L).getD o.QueryOptions.Database := by
  induction L generalizing o with
  | nil => rfl
  | cons k rest ih =>
    simp only [List.map_cons, applyOpts, build_store, ih]
    cases k <;>
      simp [lastWithDatabase, OptionCall.databaseArg, OptionCall.build, WithDatabase,
        WithQueryType, WithPrecision, WithGzipThreshold, WithDefaultTags, List.getLast?_cons]

/-- C3, as amended (database selection precedence). Let the resolved database
be the value set by the last `WithDatabase` override of `L` if there is one,
else the database of the defaults record (the zero record for a nil pointer).
Called with `newQueryOptions(D, L)` on a session whose Flight SQL handle is
stored, `QueryWithOptions` first calls `Prepare` under the caller's context
extended by the authorization header and by a `database` header that holds
the resolved database if that is not empty, else the session's configured
database; if both are empty it returns "database not specified" and calls
nothing. -/
theorem C3_database_precedence (w : World) (c : Client) (sql : FlightSqlClient)
    (ctx : Context) (s : Store) (pq : Option Nat) (L : List OptionCall) (query : String)
    (params : Option Record) (hsql : c.queryClientSql = some sql) :
    (amendedDatabase L (match pq with | some p => s.loadQuery p | none => {})
        c.config.Database ≠ "" →
      (QueryWithOptions w c ctx (some (newQueryOptions s pq (L.map OptionCall.build)).1)
          query params).2.head? =
        some (Event.Prepare
          (ctx ++ [("authorization", "Bearer " ++ c.config.Token),
            ("database", amendedDatabase L (match pq with | some p => s.loadQuery p | none => {})
              c.config.Database)]) query)) ∧
    (amendedDatabase L (match pq with | some p => s.loadQuery p | none => {})
        c.config.Database = "" →
      QueryWithOptions w c ctx (some (newQueryOptions s pq (L.map OptionCall.build)).1)
          query params = (.ret none (some "database not specified"), [])) := by
  have hdb : (newQueryOptions s pq (L.map OptionCall.build)).1.Database =
      (lastWithDatabase L).getD
        (match pq with | some p => s.loadQuery p | none => ({} : QueryOptions)).Database := by
    show (newOptions s pq none _).1.QueryOptions.Database = _
    rw [newOptions_eq, applyOpts_query_database]
    cases pq <;> rfl
  unfold amendedDatabase
  rw [← hdb]
  generalize (newQueryOptions s pq (L.map OptionCall.build)).1 = o
  unfold QueryWithOptions
  simp only [hsql, outgoing_eq]
  constructor
  · intro hne
    simp only [hne, if_false]
    split <;> simp
  · intro he
    simp only [he, if_true]

/-- Scenario B: session database "metrics", overrides `[WithDatabase("events")]`
over the default query options: the `database` header of the outgoing call is
"events". -/
theorem C3_witness :
    (QueryWithOptions stubWorld (stubClient "metrics") []
        (some (newQueryOptions { queryRecords := [DefaultQueryOptions] } (some 0)
          ([OptionCall.database "events"].map OptionCall.build)).1) "SELECT 1" none).2.head? =
      some (Event.Prepare [("authorization", "Bearer t"), ("database", "events")] "SELECT 1") :=
  (C3_database_precedence stubWorld (stubClient "metrics") stubSql []
    { queryRecords := [DefaultQueryOptions] } (some 0) [OptionCall.database "events"]
    "SELECT 1" none rfl).1 (by decide)

/-- C3 as stated fails: with defaults database "x", the one override
`WithDatabase("")` and session database "metrics", the `database` header of
the outgoing call is "metrics", while the rule as stated names the value of
the last `WithDatabase` override, the empty string. -/
theorem C3_counterexample :
    (QueryWithOptions stubWorld (stubClient "metrics") []
        (some (newQueryOptions { queryRecords := [{ Database := "x" }] } (some 0)
          ([OptionCall.database ""].map OptionCall.build)).1) "SELECT 1" none).2.head? =
      some (Event.Prepare [("authorization", "Bearer t"), ("database", "metrics")] "SELECT 1") ∧
    specDatabase [OptionCall.database ""] { Database := "x" } "metrics" ≠ "metrics" := by
  decide


/-- C8 (only the first endpoint is consumed). In every run of
`QueryWithOptions`, on a session with both handles stored, in which `Execute`
was called and answered with an endpoint list `ep :: rest`: the trace holds
exactly one `DoGet`, its ticket is the ticket of `ep`, and the call ends as
`DoGet` on that ticket and the reader construction decide, whatever `rest`
is; so a second endpoint causes no error by itself. And two Flight SQL
clients with the same `Prepare` whose `Execute` answers are equal or both
successful with the same first endpoint give the same run: the same result
and the same calls. -/
theorem C8_first_endpoint_only (w : World) (c : Client) (ctx : Context)
    (options : Option QueryOptions) (query : String) (params : Option Record) :
    (∀ sql fc ctx' stmt info ep rest,
      c.queryClientSql = some sql → c.queryClient = some fc →
      Event.Execute ctx' stmt ∈ (QueryWithOptions w c ctx options query params).2 →
      sql.Execute ctx' stmt params = .ok info → info.Endpoint = ep :: rest →
      (QueryWithOptions w c ctx options query params).2.filter Event.isDoGet =
          [Event.DoGet ctx' ep.Ticket] ∧
        (QueryWithOptions w c ctx options query params).1 =
          (match fc.DoGet ctx' ep.Ticket with
            | .error err => .ret none (some ("flight doget: " ++ err))
            | .ok stream =>
              match w.NewRecordReader stream with
              | .error err => .ret none (some ("flight reader: " ++ err))
              | .ok reader => .ret (some (newQueryIterator reader)) none)) ∧
    (∀ sql sql₂, c.queryClientSql = some sql → sql₂.Prepare = sql.Prepare →
      (∀ cx st ps, sql.Execute cx st ps = sql₂.Execute cx st ps ∨
        ∃ i₁ i₂ ep r₁ r₂, sql.Execute cx st ps = .ok i₁ ∧ sql₂.Execute cx st ps = .ok i₂ ∧
          i₁.Endpoint = ep :: r₁ ∧ i₂.Endpoint = ep :: r₂) →
      QueryWithOptions w { c with queryClientSql := some sql₂ } ctx options query params =
        QueryWithOptions w c ctx options query params) := by
  refine ⟨fun sql fc ctx' stmt info ep rest hsql hfc hmem he hn => ?_,
    fun sql sql₂ hsql hprep hagree => ?_⟩
  · obtain ⟨sql', hsql', _, hrun⟩ := execute_mem_inv w c ctx options query params ctx' stmt hmem
    rw [hsql] at hsql'
    cases hsql'
    rw [hrun, executeAndFetch_first_endpoint w c sql fc ctx' stmt params info ep rest hfc he hn]
    refine ⟨?_, rfl⟩
    cases params <;> cases fc.DoGet ctx' ep.Ticket <;> simp [List.filter, Event.isDoGet]
  · unfold QueryWithOptions
    cases options with
    | none => rfl
    | some o =>
      simp only
      generalize (if o.Database ≠ "" then o.Database else c.config.Database) = d
      by_cases hde : d = ""
      · simp [hde]
      · simp only [hde, if_false, hsql, hprep]
        generalize AppendToOutgoingContext (AppendToOutgoingContext ctx "authorization"
          ("Bearer " ++ c.config.Token)) "database" d = ctx0
        cases hp : sql.Prepare ctx0 query with
        | error err => rfl
        | ok stmt =>
          simp only
          rw [executeAndFetch_agree w c { c with queryClientSql := some sql₂ } sql sql₂ ctx0 stmt
            params rfl (hagree ctx0 stmt params)]

/-- Scenario D: the stub remote answers `Execute` with two endpoints; the one
`DoGet` of the run carries the ticket of the first, and the run is the run
against the remote that answers with the first endpoint alone. -/
theorem C8_witness :
    (QueryWithOptions stubWorld (stubClient "metrics") [] (some DefaultQueryOptions)
        "SELECT 1" none).2.filter Event.isDoGet =
      [Event.DoGet [("authorization", "Bearer t"), ("database", "metrics")] [1]] ∧
    QueryWithOptions stubWorld
        { stubClient "metrics" with queryClientSql := some stubSqlOneEndpoint } []
        (some DefaultQueryOptions) "SELECT 1" none =
      QueryWithOptions stubWorld (stubClient "metrics") [] (some DefaultQueryOptions)
        "SELECT 1" none :=
  ⟨((C8_first_endpoint_only stubWorld (stubClient "metrics") [] (some DefaultQueryOptions)
      "SELECT 1" none).1 stubSql stubFlight
      [("authorization", "Bearer t"), ("database", "metrics")] 7
      { Endpoint := [{ Ticket := [1] }, { Ticket := [2] }] } { Ticket := [1] }
      [{ Ticket := [2] }] rfl rfl (by decide) rfl rfl).1,
    (C8_first_endpoint_only stubWorld (stubClient "metrics") [] (some DefaultQueryOptions)
      "SELECT 1" none).2 stubSql stubSqlOneEndpoint rfl rfl
      (fun _ _ _ => Or.inr ⟨_, _, { Ticket := [1] }, [{ Ticket := [2] }], [], rfl, rfl, rfl, rfl⟩)⟩

/-- C10 (endpoint indexing). In every run of `QueryWithOptions` in which
`Execute` was called and answered successfully with `info`: the run ends in
the index-out-of-range panic exactly when `info.Endpoint` is empty, and no
error value is returned then; and when `info.Endpoint` is not empty, on a
session whose Flight handle is stored, the call returns, either an iterator
with a nil error or a nil iterator with an error. -/
theorem C10_endpoint_index (w : World) (c : Client) (ctx : Context)
    (options : Option QueryOptions) (query : String) (params : Option Record)
    (sql : FlightSqlClient) (ctx' : Context) (stmt : PreparedStatement) (info : FlightInfo)
    (hsql : c.queryClientSql = some sql)
    (hmem : Event.Execute ctx' stmt ∈ (QueryWithOptions w c ctx options query params).2)
    (he : sql.Execute ctx' stmt params = .ok info) :
    (info.Endpoint[0]? = none ↔ info.Endpoint = []) ∧
    (info.Endpoint = [] →
      (QueryWithOptions w c ctx options query params).1 = .panic indexOutOfRange) ∧
    (∀ fc, c.queryClient = some fc → info.Endpoint ≠ [] →
      (∃ it, (QueryWithOptions w c ctx options query params).1 = .ret (some it) none) ∨
      (∃ err, (QueryWithOptions w c ctx options query params).1 = .ret none (some err))) ∧
    (∀ fc, c.queryClient = some fc →
      ((QueryWithOptions w c ctx options query params).1 = .panic indexOutOfRange ↔
        info.Endpoint = [])) := by
  obtain ⟨sql', hsql', _, hrun⟩ := execute_mem_inv w c ctx options query params ctx' stmt hmem
  rw [hsql] at hsql'
  cases hsql'
  have hret : ∀ fc, c.queryClient = some fc → info.Endpoint ≠ [] →
      (∃ it, (QueryWithOptions w c ctx options query params).1 = .ret (some it) none) ∨
      (∃ err, (QueryWithOptions w c ctx options query params).1 = .ret none (some err)) := by
    intro fc hfc hne
    obtain ⟨ep, rest, hn⟩ := List.exists_cons_of_ne_nil hne
    rw [hrun, executeAndFetch_first_endpoint w c sql fc ctx' stmt params info ep rest hfc he hn]
    cases fc.DoGet ctx' ep.Ticket with
    | error err => exact Or.inr ⟨_, rfl⟩
    | ok stream =>
      cases hr : w.NewRecordReader stream with
      | error err => exact Or.inr ⟨"flight reader: " ++ err, by simp only [hr]⟩
      | ok reader => exact Or.inl ⟨newQueryIterator reader, by simp only [hr]⟩
  have hpanic : info.Endpoint = [] →
      (QueryWithOptions w c ctx options query params).1 = .panic indexOutOfRange := by
    intro hn
    rw [hrun]
    exact executeAndFetch_no_endpoint w c sql ctx' stmt params info he hn
  refine ⟨?_, hpanic, hret, fun fc hfc => ⟨fun hp => ?_, hpanic⟩⟩
  · cases info.Endpoint <;> simp
  · by_contra hne
    rcases hret fc hfc hne with ⟨it, h⟩ | ⟨err, h⟩ <;> rw [h] at hp <;> cases hp


/-- A successful `Execute` with no endpoint: the call panics on
`info.Endpoint[0]` instead of returning an error. -/
theorem C10_witness :
    (QueryWithOptions stubWorld
        { config := { Database := "metrics" }, queryClient := some stubFlight,
          queryClientSql := some stubSqlNoEndpoint }
        [] (some DefaultQueryOptions) "SELECT 1" none).1 = .panic indexOutOfRange :=
  (C10_endpoint_index stubWorld
    { config := { Database := "metrics" }, queryClient := some stubFlight,
      queryClientSql := some stubSqlNoEndpoint }
    [] (some DefaultQueryOptions) "SELECT 1" none stubSqlNoEndpoint
    [("authorization", "Bearer "), ("database", "metrics")] 7 { Endpoint := [] }
    rfl (by decide) rfl).2.1 rfl

/-- C9 (transport selection). With `(url, safe)` the answer of
`ReplaceURLProtocolWithPort` for the configured host: a client constructor is
handed the transport without certificate validation if and only if `safe` is
a non-nil false. In that case the first call is the Flight client
construction with that transport and the system pool is not asked for. When
`safe` is nil or true the system pool is loaded first; if that succeeds every
client constructor called is handed the TLS transport built from that pool,
and if it fails the method returns the error prefixed "x509: ", has called no
client constructor and has stored no handle. -/
theorem C9_transport_selection (w : World) (c : Client) :
    (Transport.insecure ∈ transportsUsed (initializeQueryClient w c).2.2 ↔
      (w.ReplaceURLProtocolWithPort c.config.Host).2 = some false) ∧
    ((w.ReplaceURLProtocolWithPort c.config.Host).2 = some false →
      (initializeQueryClient w c).2.2.head? =
          some (Event.NewClientWithMiddleware (w.ReplaceURLProtocolWithPort c.config.Host).1
            Transport.insecure) ∧
        Event.SystemCertPool ∉ (initializeQueryClient w c).2.2) ∧
    ((w.ReplaceURLProtocolWithPort c.config.Host).2 ≠ some false →
      ∀ pool, w.SystemCertPool = .ok pool →
        (initializeQueryClient w c).2.2.take 2 =
            [Event.SystemCertPool,
              Event.NewClientWithMiddleware (w.ReplaceURLProtocolWithPort c.config.Host).1
                (Transport.tls pool)] ∧
          ∀ t ∈ transportsUsed (initializeQueryClient w c).2.2, t = Transport.tls pool) ∧
    ((w.ReplaceURLProtocolWithPort c.config.Host).2 ≠ some false →
      ∀ err, w.SystemCertPool = .error err →
        initializeQueryClient w c = (some ("x509: " ++ err), c, [Event.SystemCertPool])) := by
  unfold initializeQueryClient
  generalize w.ReplaceURLProtocolWithPort c.config.Host = r
  obtain ⟨url, safe⟩ := r
  rcases safe with _ | _ | _
  · -- nil flag
    simp only [true_or, if_true]
    cases hpool : w.SystemCertPool with
    | error err => simp [transportsUsed, Event.transportOf]
    | ok pool =>
      simp only
      cases w.NewClientWithMiddleware url (Transport.tls pool) with
      | error e => simp [transportsUsed, Event.transportOf]
      | ok client =>
        cases w.NewClient url (Transport.tls pool) <;> simp [transportsUsed, Event.transportOf]
  · -- flag false
    simp only [reduceCtorEq, Option.some.injEq, Bool.false_eq_true, or_self, if_false]
    cases w.NewClientWithMiddleware url Transport.insecure with
    | error e => simp [transportsUsed, Event.transportOf]
    | ok client =>
      cases w.NewClient url Transport.insecure <;> simp [transportsUsed, Event.transportOf]
  · -- flag true
    simp only [or_true, if_true]
    cases hpool : w.SystemCertPool with
    | error err => simp [transportsUsed, Event.transportOf]
    | ok pool =>
      simp only
      cases w.NewClientWithMiddleware url (Transport.tls pool) with
      | error e => simp [transportsUsed, Event.transportOf]
      | ok client =>
        cases w.NewClient url (Transport.tls pool) <;> simp [transportsUsed, Event.transportOf]


/-- With a nil safe flag and a system pool that loads, the pool is asked for
first and the Flight client is built on the TLS transport of that pool. -/
theorem C9_witness :
    (initializeQueryClient stubWorld (stubClient "metrics")).2.2.take 2 =
      [Event.SystemCertPool,
        Event.NewClientWithMiddleware "https://host" (Transport.tls 1)] :=
  ((C9_transport_selection stubWorld (stubClient "metrics")).2.2.1 (by decide) 1 rfl).1

end Influxdb3
